import Mathlib

/-!
Verification development for the usdc-bridge repository: a shallow
embedding of the three scripts (`balance.py`, `send.py`, `bridge.py`)
as pure Lean functions over explicit oracle worlds for their external
effects (environment variables, RPC connectivity, contract calls, the
attestation HTTP endpoint), together with theorems settling the
specification's claims.

Python `dict` results are modelled as association lists of `Val`;
Python `float` amounts are modelled as exact rationals (IEEE rounding
is outside the model; the counterexamples below use dyadic rationals
that are exactly representable as binary64 floats, so they are faithful
to the Python behaviour). Each fallible external call is one oracle
slot of type `Except String _`; a `.error` value models the call
raising, and the scripts' top-level `try/except` blocks are embedded
as the match arms that turn `.error e` into the dict `{"error": str(e)}`.
Side effects that matter to the claims (connecting to an RPC URL,
submitting a transaction with a raw amount, issuing an attestation
HTTP GET, sleeping) are recorded in an event trace returned alongside
the result dict.
-/

namespace UsdcBridge

/-- Model of a Python value appearing in the scripts' result dicts. -/
inductive Val where
  | vStr (s : String)
  | vBool (b : Bool)
  | vInt (n : ℤ)
  | vRat (q : ℚ)
  | vNone
  deriving DecidableEq, Repr

/-- Model of a Python dict with string keys (insertion-ordered). -/
abbrev PyDict := List (String × Val)

/-- `d.get(k)`: first binding of key `k`, if any. -/
def dGet (d : PyDict) (k : String) : Option Val :=
  (d.find? (fun p => p.1 == k)).map (fun p => p.2)

/-- `k in d` for the dict model. -/
def hasKey (d : PyDict) (k : String) : Bool :=
  (dGet d k).isSome

/-- Python `int()` applied to an exact numeric value: truncation toward zero. -/
def pyInt (q : ℚ) : ℤ :=
  if 0 ≤ q then ⌊q⌋ else ⌈q⌉

/-- Observable external events of a script run. -/
inductive Event where
  | connect (url : String)
  | httpGet (url : String)
  | sleep (seconds : ℕ)
  | txApprove (amountRaw : ℤ)
  | txBurn (amountRaw : ℤ)
  | txTransfer (amountRaw : ℤ)
  | txReceive
  deriving DecidableEq, Repr

/-- Number of attestation HTTP GETs in a trace. -/
def nGets (t : List Event) : ℕ :=
  t.countP (fun e => match e with | .httpGet _ => true | _ => false)

/-- Number of `approve` transaction submissions in a trace. -/
def nApprove (t : List Event) : ℕ :=
  t.countP (fun e => match e with | .txApprove _ => true | _ => false)

/-- Number of `depositForBurn` transaction submissions in a trace. -/
def nBurn (t : List Event) : ℕ :=
  t.countP (fun e => match e with | .txBurn _ => true | _ => false)

/-- Number of `receiveMessage` transaction submissions in a trace. -/
def nReceive (t : List Event) : ℕ :=
  t.countP (fun e => match e with | .txReceive => true | _ => false)

/-- `private_key or os.getenv("USDC_PRIVATE_KEY")` followed by the
`if not pk` falsiness test: `none` means the script reports the missing
private key (both `None` and `""` are falsy). -/
def resolvePk (private_key : Option String) (env : String → Option String) : Option String :=
  let pk := match private_key with
    | some p => if p = "" then env "USDC_PRIVATE_KEY" else some p
    | none => env "USDC_PRIVATE_KEY"
  match pk with
  | some p => if p = "" then none else some p
  | none => none

/-- `os.getenv(key, default)`: the environment value when the variable is
set (even when set to the empty string), the default otherwise. -/
def getenvD (env : String → Option String) (key : String) (dflt : Option String) :
    Option String :=
  match env key with
  | some v => some v
  | none => dflt

/-- Python `str.upper()` for the ASCII chain names used by the scripts:
uppercase each character. -/
def pyUpper (s : String) : String :=
  ⟨s.data.map Char.toUpper⟩

namespace Balance

/-- USDC contract address table of `balance.py`. -/
def USDC_ADDRESSES : List (String × String) :=
  [("ethereum", "0xA0b86991c6218b36c1d19D4a2e9Eb0cE3606eB48"),
   ("ethereum_sepolia", "0x1c7D4B196Cb0C7B01d743Fbc6116a902379C7238"),
   ("base", "0x833589fCD6eDb6E08f4c7C32D4f71b54bdA02913"),
   ("base_sepolia", "0x036CbD53842c5426634e7929541eC2318f3dCF7e"),
   ("polygon", "0x3c499c542cEF5E3811e1192ce70d8cC03d5c3359"),
   ("polygon_mumbai", "0x9999f7Fea5938fD3b1E26A12c3f2fb024e194f97"),
   ("arbitrum", "0xaf88d065e77c8cC2239327C5EDb3A432268e5831"),
   ("arbitrum_sepolia", "0x75faf114eafb1BDbe2F0316DF893fd58CE46AA4d")]

/-- Default RPC endpoint table of `balance.py`. -/
def DEFAULT_RPCS : List (String × String) :=
  [("ethereum", "https://eth.llamarpc.com"),
   ("ethereum_sepolia", "https://ethereum-sepolia-rpc.publicnode.com"),
   ("base", "https://base.llamarpc.com"),
   ("base_sepolia", "https://base-sepolia-rpc.publicnode.com"),
   ("polygon", "https://polygon.llamarpc.com"),
   ("polygon_mumbai", "https://polygon-mumbai-bor-rpc.publicnode.com"),
   ("arbitrum", "https://arbitrum.llamarpc.com"),
   ("arbitrum_sepolia", "https://arbitrum-sepolia-rpc.publicnode.com")]

/-- `get_chain_key` of `balance.py`: with `testnet` the chain name is sent
through the testnet map (falling back to itself), otherwise returned as is. -/
def get_chain_key (chain : String) (testnet : Bool) : String :=
  if testnet then
    (([("ethereum", "ethereum_sepolia"),
       ("base", "base_sepolia"),
       ("polygon", "polygon_mumbai"),
       ("arbitrum", "arbitrum_sepolia")] : List (String × String)).lookup chain).getD chain
  else chain

/-- Oracles for the external effects of `get_balance`: the process
environment, RPC reachability, and the two contract read calls (a
`.error` models the underlying library raising). -/
structure World where
  env : String → Option String
  isConnected : Bool
  balanceOf : Except String ℕ
  decimals : Except String ℕ

/-- `get_balance` of `balance.py`, returning the result dict together with
the event trace of the run. -/
def get_balance (address chain : String) (testnet : Bool) (w : World) :
    PyDict × List Event :=
  let chain_key := get_chain_key chain testnet
  let rpc_env_key := "USDC_RPC_" ++ pyUpper chain
  let rpc_url := getenvD w.env rpc_env_key (DEFAULT_RPCS.lookup chain_key)
  match rpc_url with
  | none => ([("error", .vStr ("No RPC URL for chain: " ++ chain_key))], [])
  | some u =>
    if u = "" then ([("error", .vStr ("No RPC URL for chain: " ++ chain_key))], [])
    else
      match USDC_ADDRESSES.lookup chain_key with
      | none => ([("error", .vStr ("USDC not supported on chain: " ++ chain_key))], [])
      | some usdc_address =>
        let tr := [Event.connect u]
        if !w.isConnected then
          ([("error", .vStr ("Could not connect to " ++ chain_key ++ " RPC"))], tr)
        else
          match w.balanceOf with
          | .error e => ([("error", .vStr e)], tr)
          | .ok balance_raw =>
            match w.decimals with
            | .error e => ([("error", .vStr e)], tr)
            | .ok decimals =>
              ([("address", .vStr address),
                ("chain", .vStr chain_key),
                ("testnet", .vBool testnet),
                ("balance", .vRat ((balance_raw : ℚ) / 10 ^ decimals)),
                ("balance_raw", .vInt balance_raw),
                ("decimals", .vInt decimals),
                ("usdc_contract", .vStr usdc_address)], tr)

end Balance

namespace Send

/-- USDC contract address table of `send.py` (same as `balance.py`). -/
def USDC_ADDRESSES : List (String × String) :=
  [("ethereum", "0xA0b86991c6218b36c1d19D4a2e9Eb0cE3606eB48"),
   ("ethereum_sepolia", "0x1c7D4B196Cb0C7B01d743Fbc6116a902379C7238"),
   ("base", "0x833589fCD6eDb6E08f4c7C32D4f71b54bdA02913"),
   ("base_sepolia", "0x036CbD53842c5426634e7929541eC2318f3dCF7e"),
   ("polygon", "0x3c499c542cEF5E3811e1192ce70d8cC03d5c3359"),
   ("polygon_mumbai", "0x9999f7Fea5938fD3b1E26A12c3f2fb024e194f97"),
   ("arbitrum", "0xaf88d065e77c8cC2239327C5EDb3A432268e5831"),
   ("arbitrum_sepolia", "0x75faf114eafb1BDbe2F0316DF893fd58CE46AA4d")]

/-- Default RPC endpoint table of `send.py`. -/
def DEFAULT_RPCS : List (String × String) :=
  [("ethereum", "https://eth.llamarpc.com"),
   ("ethereum_sepolia", "https://ethereum-sepolia-rpc.publicnode.com"),
   ("base", "https://base.llamarpc.com"),
   ("base_sepolia", "https://base-sepolia-rpc.publicnode.com"),
   ("polygon", "https://polygon.llamarpc.com"),
   ("polygon_mumbai", "https://polygon-mumbai-bor-rpc.publicnode.com"),
   ("arbitrum", "https://arbitrum.llamarpc.com"),
   ("arbitrum_sepolia", "https://arbitrum-sepolia-rpc.publicnode.com")]

/-- `get_chain_key` of `send.py`. -/
def get_chain_key (chain : String) (testnet : Bool) : String :=
  if testnet then
    (([("ethereum", "ethereum_sepolia"),
       ("base", "base_sepolia"),
       ("polygon", "polygon_mumbai"),
       ("arbitrum", "arbitrum_sepolia")] : List (String × String)).lookup chain).getD chain
  else chain

/-- `get_explorer_url` of `send.py`. -/
def get_explorer_url (chain_key tx_hash : String) : String :=
  (([("ethereum", "https://etherscan.io/tx/" ++ tx_hash),
     ("ethereum_sepolia", "https://sepolia.etherscan.io/tx/" ++ tx_hash),
     ("base", "https://basescan.org/tx/" ++ tx_hash),
     ("base_sepolia", "https://sepolia.basescan.org/tx/" ++ tx_hash),
     ("polygon", "https://polygonscan.com/tx/" ++ tx_hash),
     ("polygon_mumbai", "https://mumbai.polygonscan.com/tx/" ++ tx_hash),
     ("arbitrum", "https://arbiscan.io/tx/" ++ tx_hash),
     ("arbitrum_sepolia", "https://sepolia.arbiscan.io/tx/" ++ tx_hash)]
    : List (String × String)).lookup chain_key).getD ""

/-- Oracles for the external effects of `send_usdc`: the environment,
RPC reachability, `Account.from_key` (address derivation may raise on a
malformed key), the `decimals()` read call, and the transfer submission
(nonce/gas queries, building, signing and `send_raw_transaction` are one
slot: a `.ok` value is the returned transaction hash hex, a `.error`
models any of them raising before a transaction was submitted). -/
structure World where
  env : String → Option String
  isConnected : Bool
  accountAddr : Except String String
  decimals : Except String ℕ
  transferSend : Except String String

/-- `send_usdc` of `send.py`, returning the result dict together with the
event trace of the run. -/
def send_usdc (toAddr : String) (amount : ℚ) (chain : String) (testnet : Bool)
    (private_key : Option String) (w : World) : PyDict × List Event :=
  let chain_key := get_chain_key chain testnet
  match resolvePk private_key w.env with
  | none => ([("error", .vStr "No private key provided. Set USDC_PRIVATE_KEY env var.")], [])
  | some _pk =>
    let rpc_env_key := "USDC_RPC_" ++ pyUpper chain
    let rpc_url := getenvD w.env rpc_env_key (DEFAULT_RPCS.lookup chain_key)
    match rpc_url with
    | none => ([("error", .vStr ("No RPC URL for chain: " ++ chain_key))], [])
    | some u =>
      if u = "" then ([("error", .vStr ("No RPC URL for chain: " ++ chain_key))], [])
      else
        match USDC_ADDRESSES.lookup chain_key with
        | none => ([("error", .vStr ("USDC not supported on chain: " ++ chain_key))], [])
        | some _usdc_address =>
          let tr := [Event.connect u]
          if !w.isConnected then
            ([("error", .vStr ("Could not connect to " ++ chain_key ++ " RPC"))], tr)
          else
            match w.accountAddr with
            | .error e => ([("error", .vStr e)], tr)
            | .ok sender =>
              match w.decimals with
              | .error e => ([("error", .vStr e)], tr)
              | .ok decimals =>
                let amount_raw := pyInt (amount * 10 ^ decimals)
                match w.transferSend with
                | .error e => ([("error", .vStr e)], tr)
                | .ok tx_hash =>
                  ([("success", .vBool true),
                    ("tx_hash", .vStr tx_hash),
                    ("from", .vStr sender),
                    ("to", .vStr toAddr),
                    ("amount", .vRat amount),
                    ("chain", .vStr chain_key),
                    ("testnet", .vBool testnet),
                    ("explorer", .vStr (get_explorer_url chain_key tx_hash))],
                   tr ++ [Event.txTransfer amount_raw])

end Send

namespace Bridge

/-- CCTP TokenMessenger contract address table of `bridge.py`. -/
def TOKEN_MESSENGER : List (String × String) :=
  [("ethereum", "0xBd3fa81B58Ba92a82136038B25aDec7066af3155"),
   ("ethereum_sepolia", "0x9f3B8679c73C2Fef8b59B4f3444d4e156fb70AA5"),
   ("base", "0x1682Ae6375C4E4A97e4B583BC394c861A46D8962"),
   ("base_sepolia", "0x9f3B8679c73C2Fef8b59B4f3444d4e156fb70AA5"),
   ("polygon", "0x9daF8c91AEFAE50b9c0E69629D3F6Ca40cA3B3FE"),
   ("arbitrum", "0x19330d10D9Cc8751218eaf51E8885D058642E08A"),
   ("arbitrum_sepolia", "0x9f3B8679c73C2Fef8b59B4f3444d4e156fb70AA5")]

/-- CCTP MessageTransmitter contract address table of `bridge.py`. -/
def MESSAGE_TRANSMITTER : List (String × String) :=
  [("ethereum", "0x0a992d191DEeC32aFe36203Ad87D7d289a738F81"),
   ("ethereum_sepolia", "0x7865fAfC2db2093669d92c0F33AeEF291086BEFD"),
   ("base", "0xAD09780d193884d503182aD4588450C416D6F9D4"),
   ("base_sepolia", "0x7865fAfC2db2093669d92c0F33AeEF291086BEFD"),
   ("polygon", "0xF3be9355363857F3e001be68856A2f96b4C39Ba9"),
   ("arbitrum", "0xC30362313FBBA5cf9163F0bb16a0e01f01A896ca"),
   ("arbitrum_sepolia", "0x7865fAfC2db2093669d92c0F33AeEF291086BEFD")]

/-- CCTP domain identifier table of `bridge.py`. -/
def DOMAIN_IDS : List (String × ℕ) :=
  [("ethereum", 0),
   ("ethereum_sepolia", 0),
   ("avalanche", 1),
   ("optimism", 2),
   ("arbitrum", 3),
   ("arbitrum_sepolia", 3),
   ("base", 6),
   ("base_sepolia", 6),
   ("polygon", 7)]

/-- USDC contract address table of `bridge.py` (note: no polygon testnet entry). -/
def USDC_ADDRESSES : List (String × String) :=
  [("ethereum", "0xA0b86991c6218b36c1d19D4a2e9Eb0cE3606eB48"),
   ("ethereum_sepolia", "0x1c7D4B196Cb0C7B01d743Fbc6116a902379C7238"),
   ("base", "0x833589fCD6eDb6E08f4c7C32D4f71b54bdA02913"),
   ("base_sepolia", "0x036CbD53842c5426634e7929541eC2318f3dCF7e"),
   ("polygon", "0x3c499c542cEF5E3811e1192ce70d8cC03d5c3359"),
   ("arbitrum", "0xaf88d065e77c8cC2239327C5EDb3A432268e5831"),
   ("arbitrum_sepolia", "0x75faf114eafb1BDbe2F0316DF893fd58CE46AA4d")]

/-- Default RPC endpoint table of `bridge.py` (no polygon testnet entry). -/
def DEFAULT_RPCS : List (String × String) :=
  [("ethereum", "https://eth.llamarpc.com"),
   ("ethereum_sepolia", "https://ethereum-sepolia-rpc.publicnode.com"),
   ("base", "https://base.llamarpc.com"),
   ("base_sepolia", "https://base-sepolia-rpc.publicnode.com"),
   ("polygon", "https://polygon.llamarpc.com"),
   ("arbitrum", "https://arbitrum.llamarpc.com"),
   ("arbitrum_sepolia", "https://arbitrum-sepolia-rpc.publicnode.com")]

/-- Circle attestation API endpoints of `bridge.py`. -/
def ATTESTATION_API : List (String × String) :=
  [("mainnet", "https://iris-api.circle.com/attestations"),
   ("testnet", "https://iris-api-sandbox.circle.com/attestations")]

/-- `get_chain_key` of `bridge.py`. Unlike `balance.py` and `send.py`, its
testnet map has no entry for `polygon`. -/
def get_chain_key (chain : String) (testnet : Bool) : String :=
  if testnet then
    (([("ethereum", "ethereum_sepolia"),
       ("base", "base_sepolia"),
       ("arbitrum", "arbitrum_sepolia")] : List (String × String)).lookup chain).getD chain
  else chain

/-- Value of one hexadecimal digit character, `none` on a non-hex character. -/
def hexVal (c : Char) : Option ℕ :=
  if '0' ≤ c ∧ c ≤ '9' then some (c.toNat - '0'.toNat)
  else if 'a' ≤ c ∧ c ≤ 'f' then some (c.toNat - 'a'.toNat + 10)
  else if 'A' ≤ c ∧ c ≤ 'F' then some (c.toNat - 'A'.toNat + 10)
  else none

/-- `bytes.fromhex`: pairs of hex digits to bytes; fails on odd length or a
non-hex character. -/
def fromhex : List Char → Option (List ℕ)
  | [] => some []
  | c1 :: c2 :: rest => do
    let h ← hexVal c1
    let l ← hexVal c2
    let r ← fromhex rest
    pure ((16 * h + l) :: r)
  | [_] => none

/-- `str.zfill(n)` on a sign-free string: left-pad with `'0'` to length `n`.
(The inputs of `address_to_bytes32` are hex-digit strings, which carry no
leading sign, so Python's sign handling never fires.) -/
def zfill (s : List Char) (n : ℕ) : List Char :=
  List.replicate (n - s.length) '0' ++ s

/-- `address_to_bytes32` of `bridge.py`: drop the `0x` prefix, left-pad the
hex rendering to 64 digits and decode it to bytes. -/
def address_to_bytes32 (address : List Char) : Option (List ℕ) :=
  fromhex (zfill (address.drop 2) 64)

/-- Parsed JSON body of one attestation API response: the fields the script
reads via `data.get`, each absent (`none`) when the service omitted it. -/
structure AttData where
  status : Option String
  attestation : Option String
  message : Option String
  deriving DecidableEq, Repr

/-- Outcome of one polling attempt: either the HTTP GET (or `.json()`
decoding) raises, or a decoded response body is observed. -/
inductive AttResponse where
  | raise (e : String)
  | resp (data : AttData)
  deriving DecidableEq, Repr

/-- A `data.get(k)` result as a dict value (`None` when absent). -/
def optVal : Option String → Val
  | some s => .vStr s
  | none => .vNone

/-- Whether a polling attempt observed a response with status `complete`. -/
def isComplete : AttResponse → Bool
  | .raise _ => false
  | .resp data => data.status == some "complete"

/-- The `for attempt in range(max_attempts)` loop of `get_attestation`:
`attempt` is the current index, `fuel` the remaining iterations. Each
iteration issues one GET; on a `complete` status it returns the success
dict, on any other response it sleeps 10 seconds, and when the attempt
raised it sleeps 5 seconds; an exhausted loop returns the timeout dict. -/
def attLoop (api_url message_hash : String) (responses : ℕ → AttResponse) :
    ℕ → ℕ → PyDict × List Event
  | _, 0 => ([("error", .vStr "Attestation timeout")], [])
  | attempt, fuel + 1 =>
    let ev := Event.httpGet (api_url ++ "/" ++ message_hash)
    match responses attempt with
    | .raise _ =>
      let r := attLoop api_url message_hash responses (attempt + 1) fuel
      (r.1, ev :: Event.sleep 5 :: r.2)
    | .resp data =>
      if data.status == some "complete" then
        ([("success", .vBool true),
          ("attestation", optVal data.attestation),
          ("message", optVal data.message)], [ev])
      else
        let r := attLoop api_url message_hash responses (attempt + 1) fuel
        (r.1, ev :: Event.sleep 10 :: r.2)

/-- `get_attestation` of `bridge.py`. In the source `max_attempts` defaults
to 30; the oracle `responses` gives the outcome of each attempt. -/
def get_attestation (message_hash : String) (testnet : Bool)
    (max_attempts : ℕ := 30) (responses : ℕ → AttResponse) :
    PyDict × List Event :=
  let api_url := (ATTESTATION_API.lookup (if testnet then "testnet" else "mainnet")).getD ""
  attLoop api_url message_hash responses 0 max_attempts

/-- Oracles for the external effects of `bridge_usdc`: the environment,
`Account.from_key`, the `decimals()` read, and for each of the three
transactions one submission slot (nonce/gas queries, building, signing and
`send_raw_transaction`; `.ok` carries the returned hash hex) and one
receipt-wait slot, plus the per-attempt attestation responses. -/
structure World where
  env : String → Option String
  accountAddr : Except String String
  decimals : Except String ℕ
  approveSend : Except String String
  approveWait : Except String Unit
  burnSend : Except String String
  burnWait : Except String Unit
  att : ℕ → AttResponse
  receiveSend : Except String String
  receiveWait : Except String Unit

/-- `bridge_usdc` of `bridge.py`, returning the result dict together with
the event trace of the run. The `Web3.to_checksum_address(None)` and
`attestation_result["message"][2:]`-on-`None` hazards of step 4 surface as
raises with a library message; the exact text does not matter to any
claim, only that the except clause stringifies it. -/
def bridge_usdc (toAddr : String) (amount : ℚ) (from_chain to_chain : String)
    (testnet : Bool) (private_key : Option String) (w : World) :
    PyDict × List Event :=
  let from_key := get_chain_key from_chain testnet
  let to_key := get_chain_key to_chain testnet
  match resolvePk private_key w.env with
  | none => ([("error", .vStr "No private key. Set USDC_PRIVATE_KEY env var.")], [])
  | some _pk =>
    match w.accountAddr with
    | .error e => ([("error", .vStr e)], [])
    | .ok _sender =>
      let usdc_addr := USDC_ADDRESSES.lookup from_key
      let messenger_addr := TOKEN_MESSENGER.lookup from_key
      let dest_domain := DOMAIN_IDS.lookup to_key
      match usdc_addr, messenger_addr, dest_domain with
      | some _ua, some _ma, some _dd =>
        match w.decimals with
        | .error e => ([("error", .vStr e)], [])
        | .ok decimals =>
          let amount_raw := pyInt (amount * 10 ^ decimals)
          match w.approveSend with
          | .error e => ([("error", .vStr e)], [])
          | .ok _tx_hash =>
            match w.approveWait with
            | .error e => ([("error", .vStr e)], [Event.txApprove amount_raw])
            | .ok _ =>
              match w.burnSend with
              | .error e => ([("error", .vStr e)], [Event.txApprove amount_raw])
              | .ok burn_hash =>
                match w.burnWait with
                | .error e =>
                  ([("error", .vStr e)],
                   [Event.txApprove amount_raw, Event.txBurn amount_raw])
                | .ok _ =>
                  let message_hash := "0x" ++ burn_hash
                  let attR := get_attestation message_hash testnet 30 w.att
                  let tr := [Event.txApprove amount_raw, Event.txBurn amount_raw] ++ attR.2
                  if hasKey attR.1 "error" then
                    ([("partial_success", .vBool true),
                      ("burn_tx", .vStr burn_hash),
                      ("error", (dGet attR.1 "error").getD .vNone),
                      ("note", .vStr "Burn successful. Attestation pending. Use status.py to complete.")],
                     tr)
                  else
                    match MESSAGE_TRANSMITTER.lookup to_key with
                    | none =>
                      ([("error", .vStr "to_checksum_address of None")], tr)
                    | some _ta =>
                      match dGet attR.1 "message", dGet attR.1 "attestation" with
                      | some (.vStr _m), some (.vStr _a) =>
                        match w.receiveSend with
                        | .error e => ([("error", .vStr e)], tr)
                        | .ok receive_hash =>
                          match w.receiveWait with
                          | .error e => ([("error", .vStr e)], tr ++ [Event.txReceive])
                          | .ok _ =>
                            ([("success", .vBool true),
                              ("amount", .vRat amount),
                              ("from_chain", .vStr from_key),
                              ("to_chain", .vStr to_key),
                              ("recipient", .vStr toAddr),
                              ("burn_tx", .vStr burn_hash),
                              ("receive_tx", .vStr receive_hash)],
                             tr ++ [Event.txReceive])
                      | _, _ =>
                        ([("error", .vStr "TypeError: NoneType is not subscriptable")], tr)
      | _, _, _ =>
        ([("error", .vStr ("CCTP not supported for " ++ from_key ++ " -> " ++ to_key))], [])

/-- Whether a polling attempt raised. -/
def isRaise : AttResponse → Bool
  | .raise _ => true
  | .resp _ => false

end Bridge

section ConcreteWorlds

/-- Attestation oracle where every attempt raises a network error. -/
def allRaise : ℕ → Bridge.AttResponse := fun _ => .raise "connection reset"

/-- Attestation oracle whose first attempt observes a pending status and
whose later attempts raise. -/
def pendThenRaise : ℕ → Bridge.AttResponse := fun n =>
  if n = 0 then .resp ⟨some "pending_confirmations", none, none⟩ else .raise "connection reset"

/-- A balance world with no environment overrides and successful calls. -/
def balOkW : Balance.World :=
  ⟨fun _ => none, true, .ok 12345678, .ok 6⟩

/-- A balance world whose environment sets the base-chain RPC override. -/
def balOvrW : Balance.World :=
  ⟨fun k => if k = "USDC_RPC_BASE" then some "http://localhost:8545" else none,
   true, .ok 12345678, .ok 6⟩

/-- A send world with no environment overrides and successful calls. -/
def sendOkW : Send.World :=
  ⟨fun _ => none, true, .ok "0xSender", .ok 6, .ok "ab12"⟩

/-- A send world whose environment sets the base-chain RPC override. -/
def sendOvrW : Send.World :=
  ⟨fun k => if k = "USDC_RPC_BASE" then some "http://localhost:8545" else none,
   true, .ok "0xSender", .ok 6, .ok "ab12"⟩

/-- A bridge world with successful contract calls whose attestation
attempts all raise, so the poll times out. -/
def bridgeTimeoutW : Bridge.World :=
  ⟨fun _ => none, .ok "0xSender", .ok 6, .ok "aa11", .ok (), .ok "bb22", .ok (),
   allRaise, .ok "cc33", .ok ()⟩

/-- A bridge world with one pending attestation attempt before raising. -/
def bridgePendW : Bridge.World :=
  ⟨fun _ => none, .ok "0xSender", .ok 6, .ok "aa11", .ok (), .ok "bb22", .ok (),
   pendThenRaise, .ok "cc33", .ok ()⟩

/-- The 40 hex digits of a concrete address. -/
def hex40 : List Char := "000102030405060708090a0b0c0d0e0f10111213".toList

end ConcreteWorlds

section AttestationLemmas

open Bridge

/-- The polling loop issues at most `fuel` HTTP GETs. -/
theorem attLoop_gets_le (api msg : String) (rsp : ℕ → AttResponse) :
    ∀ fuel attempt, nGets (attLoop api msg rsp attempt fuel).2 ≤ fuel := by
  intro fuel
  induction fuel with
  | zero => intro a; simp [attLoop, nGets]
  | succ n ih =>
    intro a
    simp only [attLoop]
    cases rsp a with
    | raise e =>
      have hle := ih (a + 1)
      simp only [nGets] at hle ⊢
      simp [List.countP_cons]
      omega
    | resp data =>
      by_cases hc : (data.status == some "complete") = true
      · simp [hc, nGets, List.countP_cons]
      · have hle := ih (a + 1)
        simp only [Bool.not_eq_true] at hc
        simp only [nGets] at hle ⊢
        simp [hc, List.countP_cons]
        omega

/-- If no attempt in the window observes a `complete` status, the loop
exhausts its fuel and returns the timeout dict. -/
theorem attLoop_timeout (api msg : String) (rsp : ℕ → AttResponse) :
    ∀ fuel attempt,
      (∀ i, attempt ≤ i → i < attempt + fuel → isComplete (rsp i) = false) →
      (attLoop api msg rsp attempt fuel).1 = [("error", .vStr "Attestation timeout")] := by
  intro fuel
  induction fuel with
  | zero => intro a _; simp [attLoop]
  | succ n ih =>
    intro a h
    simp only [attLoop]
    cases hr : rsp a with
    | raise e =>
      exact ih (a + 1) (fun i h1 h2 => h i (by omega) (by omega))
    | resp data =>
      have hc := h a (Nat.le_refl a) (by omega)
      rw [hr] at hc
      simp only [isComplete] at hc
      simp only [hc, Bool.false_eq_true, if_false]
      exact ih (a + 1) (fun i h1 h2 => h i (by omega) (by omega))

/-- Every event of the polling loop's trace is the attestation GET (always
against `api ++ "/" ++ msg`) or a sleep of 10 or 5 seconds. -/
theorem attLoop_trace_mem (api msg : String) (rsp : ℕ → AttResponse) :
    ∀ fuel attempt e, e ∈ (attLoop api msg rsp attempt fuel).2 →
      e = .httpGet (api ++ "/" ++ msg) ∨ e = .sleep 10 ∨ e = .sleep 5 := by
  intro fuel
  induction fuel with
  | zero => intro a e he; simp [attLoop] at he
  | succ n ih =>
    intro a e he
    simp only [attLoop] at he
    cases hr : rsp a with
    | raise ex =>
      rw [hr] at he
      simp only [List.mem_cons] at he
      rcases he with h | h | h
      · exact Or.inl h
      · exact Or.inr (Or.inr h)
      · exact ih (a + 1) e h
    | resp data =>
      rw [hr] at he
      by_cases hc : (data.status == some "complete") = true
      · simp only [hc, if_true, List.mem_cons, List.not_mem_nil, or_false] at he
        exact Or.inl he
      · simp only [Bool.not_eq_true] at hc
        simp only [hc, Bool.false_eq_true, if_false, List.mem_cons] at he
        rcases he with h | h | h
        · exact Or.inl h
        · exact Or.inr (Or.inl h)
        · exact ih (a + 1) e h

/-- When no attempt raises, every sleep of the polling loop is 10 seconds. -/
theorem attLoop_sleep_no_raise (api msg : String) (rsp : ℕ → AttResponse)
    (hnr : ∀ i, isRaise (rsp i) = false) :
    ∀ fuel attempt s, Event.sleep s ∈ (attLoop api msg rsp attempt fuel).2 → s = 10 := by
  intro fuel
  induction fuel with
  | zero => intro a s hs; simp [attLoop] at hs
  | succ n ih =>
    intro a s hs
    simp only [attLoop] at hs
    cases hr : rsp a with
    | raise ex => have := hnr a; rw [hr] at this; simp [isRaise] at this
    | resp data =>
      rw [hr] at hs
      by_cases hc : (data.status == some "complete") = true
      · simp [hc] at hs
      · simp only [Bool.not_eq_true] at hc
        simp only [hc, Bool.false_eq_true, if_false, List.mem_cons] at hs
        rcases hs with h | h | h
        · exact absurd h (by simp)
        · injection h with h2
        · exact ih (a + 1) s h

/-- When every attempt raises, every sleep of the polling loop is 5 seconds. -/
theorem attLoop_sleep_all_raise (api msg : String) (rsp : ℕ → AttResponse)
    (har : ∀ i, isRaise (rsp i) = true) :
    ∀ fuel attempt s, Event.sleep s ∈ (attLoop api msg rsp attempt fuel).2 → s = 5 := by
  intro fuel
  induction fuel with
  | zero => intro a s hs; simp [attLoop] at hs
  | succ n ih =>
    intro a s hs
    simp only [attLoop] at hs
    cases hr : rsp a with
    | resp data => have := har a; rw [hr] at this; simp [isRaise] at this
    | raise ex =>
      rw [hr] at hs
      simp only [List.mem_cons] at hs
      rcases hs with h | h | h
      · exact absurd h (by simp)
      · injection h with h2
      · exact ih (a + 1) s h

/-- The polling loop's result is the timeout dict or a success dict that
has no `error` key. -/
theorem attLoop_result_cases (api msg : String) (rsp : ℕ → AttResponse) :
    ∀ fuel attempt,
      (attLoop api msg rsp attempt fuel).1 = [("error", .vStr "Attestation timeout")] ∨
      (∃ data : AttData,
        (attLoop api msg rsp attempt fuel).1 =
          [("success", .vBool true),
           ("attestation", optVal data.attestation),
           ("message", optVal data.message)]) := by
  intro fuel
  induction fuel with
  | zero => intro a; left; simp [attLoop]
  | succ n ih =>
    intro a
    simp only [attLoop]
    cases hr : rsp a with
    | raise ex => exact ih (a + 1)
    | resp data =>
      by_cases hc : (data.status == some "complete") = true
      · right; exact ⟨data, by simp [hc]⟩
      · simp only [Bool.not_eq_true] at hc
        simp only [hc, Bool.false_eq_true, if_false]
        exact ih (a + 1)

/-- If the polling result carries an `error` key it is the timeout dict. -/
theorem attLoop_error_eq_timeout (api msg : String) (rsp : ℕ → AttResponse)
    (fuel attempt : ℕ)
    (h : hasKey (attLoop api msg rsp attempt fuel).1 "error" = true) :
    (attLoop api msg rsp attempt fuel).1 = [("error", .vStr "Attestation timeout")] := by
  rcases attLoop_result_cases api msg rsp fuel attempt with hc | ⟨data, hc⟩
  · exact hc
  · rw [hc] at h
    simp [hasKey, dGet, List.find?] at h

end AttestationLemmas

section HexLemmas

open Bridge

/-- Decoding two leading `'0'` digits prepends one zero byte. -/
theorem fromhex_zero2 (l : List Char) :
    fromhex ('0' :: '0' :: l) = (fromhex l).map (fun b => 0 :: b) := by
  have h0 : hexVal '0' = some 0 := by decide
  simp only [fromhex, h0, Option.bind_eq_bind, Option.some_bind]
  cases fromhex l <;> simp

/-- Decoding `2 * n` leading `'0'` digits prepends `n` zero bytes. -/
theorem fromhex_pad (n : ℕ) (l : List Char) :
    fromhex (List.replicate (2 * n) '0' ++ l) =
      (fromhex l).map (fun b => List.replicate n 0 ++ b) := by
  induction n with
  | zero => simp
  | succ k ih =>
    have hrep : List.replicate (2 * (k + 1)) '0' = '0' :: '0' :: List.replicate (2 * k) '0' := by
      rw [show 2 * (k + 1) = (2 * k) + 1 + 1 by ring]
      simp [List.replicate_succ]
    rw [hrep, List.cons_append, List.cons_append, fromhex_zero2, ih]
    cases fromhex l <;> simp [List.replicate_succ]

/-- A decoded byte string is half as long as its hex rendering. -/
theorem fromhex_length :
    ∀ (l : List Char) (b : List ℕ), fromhex l = some b → 2 * b.length = l.length := by
  intro l
  induction l using fromhex.induct with
  | case1 =>
    intro b hb
    simp [fromhex] at hb
    simp [← hb]
  | case2 c1 c2 rest ih =>
    intro b hb
    simp only [fromhex, Option.bind_eq_bind] at hb
    cases h1 : hexVal c1 with
    | none => rw [h1] at hb; simp at hb
    | some v1 =>
      rw [h1] at hb
      cases h2 : hexVal c2 with
      | none => rw [h2] at hb; simp at hb
      | some v2 =>
        rw [h2] at hb
        cases h3 : fromhex rest with
        | none => rw [h3] at hb; simp at hb
        | some r =>
          rw [h3] at hb
          simp only [Option.some_bind, Option.pure_def, Option.some.injEq] at hb
          have := ih r h3
          rw [← hb]
          simp only [List.length_cons, List.length_cons]
          omega
  | case3 c =>
    intro b hb
    simp [fromhex] at hb

/-- A hex string of even length with only hex digits decodes successfully. -/
theorem fromhex_total :
    ∀ l : List Char, (∀ c ∈ l, (hexVal c).isSome) → l.length % 2 = 0 →
      (fromhex l).isSome := by
  intro l
  induction l using fromhex.induct with
  | case1 => intro _ _; simp [fromhex]
  | case2 c1 c2 rest ih =>
    intro hhex hlen
    have h1 : (hexVal c1).isSome := hhex c1 (by simp)
    have h2 : (hexVal c2).isSome := hhex c2 (by simp)
    have h3 : (fromhex rest).isSome := by
      refine ih (fun c hc => hhex c (by simp [hc])) ?_
      simp only [List.length_cons] at hlen
      omega
    rcases Option.isSome_iff_exists.mp h1 with ⟨v1, hv1⟩
    rcases Option.isSome_iff_exists.mp h2 with ⟨v2, hv2⟩
    rcases Option.isSome_iff_exists.mp h3 with ⟨r, hr⟩
    simp [fromhex, hv1, hv2, hr]
  | case3 c =>
    intro _ hlen
    simp at hlen

end HexLemmas

section ShapeLemmas

/-- Every `get_balance` result is an error dict whose message is a string,
or the success dict (which has a `balance` key and no `error` key). -/
theorem balance_error_or_success (address chain : String) (testnet : Bool)
    (w : Balance.World) :
    (∃ m, dGet (Balance.get_balance address chain testnet w).1 "error" = some (.vStr m)) ∨
    (hasKey (Balance.get_balance address chain testnet w).1 "error" = false ∧
     hasKey (Balance.get_balance address chain testnet w).1 "balance" = true) := by
  simp only [Balance.get_balance]
  repeat' split
  all_goals simp [dGet, hasKey]

/-- Every `send_usdc` result is an error dict whose message is a string, or
the success dict (marked `success: True`, with no `error` key). -/
theorem send_error_or_success (toAddr : String) (amount : ℚ) (chain : String)
    (testnet : Bool) (pk : Option String) (w : Send.World) :
    (∃ m, dGet (Send.send_usdc toAddr amount chain testnet pk w).1 "error" = some (.vStr m)) ∨
    (hasKey (Send.send_usdc toAddr amount chain testnet pk w).1 "error" = false ∧
     dGet (Send.send_usdc toAddr amount chain testnet pk w).1 "success" = some (.vBool true)) := by
  simp only [Send.send_usdc]
  repeat' split
  all_goals simp [dGet, hasKey]

/-- Every `bridge_usdc` result is a dict whose `error` value, when present,
is a string message (this covers the plain error dicts and the
partial-success dict), or the full-success dict with no `error` key. -/
theorem bridge_error_or_success (toAddr : String) (amount : ℚ)
    (from_chain to_chain : String) (testnet : Bool) (pk : Option String)
    (w : Bridge.World) :
    (∃ m, dGet (Bridge.bridge_usdc toAddr amount from_chain to_chain testnet pk w).1 "error" =
      some (.vStr m)) ∨
    (hasKey (Bridge.bridge_usdc toAddr amount from_chain to_chain testnet pk w).1 "error" = false ∧
     dGet (Bridge.bridge_usdc toAddr amount from_chain to_chain testnet pk w).1 "success" =
       some (.vBool true)) := by
  simp only [Bridge.bridge_usdc, Bridge.get_attestation]
  repeat' split
  all_goals try (simp [dGet, hasKey]; done)
  -- remaining goal: the partial-success branch, whose error value comes
  -- from the attestation result; the dichotomy lemma pins it to the
  -- timeout message
  all_goals
    (rename_i hkey
     rw [attLoop_error_eq_timeout _ _ _ _ _ hkey]
     simp [dGet, hasKey])

/-- Case analysis of the `bridge_usdc` event trace: it stops empty before
the approve step, after the approve or burn submissions, or it is the two
submissions followed by the attestation polling trace and possibly the
receive submission; the submitted raw amount is always
`pyInt (amount * 10 ^ decimals)`. -/
theorem bridge_trace_cases (toAddr : String) (amount : ℚ)
    (from_chain to_chain : String) (testnet : Bool) (pk : Option String)
    (w : Bridge.World) :
    (Bridge.bridge_usdc toAddr amount from_chain to_chain testnet pk w).2 = [] ∨
    (∃ d, w.decimals = .ok d ∧
      ((Bridge.bridge_usdc toAddr amount from_chain to_chain testnet pk w).2 =
         [.txApprove (pyInt (amount * 10 ^ d))] ∨
       (Bridge.bridge_usdc toAddr amount from_chain to_chain testnet pk w).2 =
         [.txApprove (pyInt (amount * 10 ^ d)), .txBurn (pyInt (amount * 10 ^ d))] ∨
       (∃ bh, w.burnSend = .ok bh ∧
         ((Bridge.bridge_usdc toAddr amount from_chain to_chain testnet pk w).2 =
            [.txApprove (pyInt (amount * 10 ^ d)), .txBurn (pyInt (amount * 10 ^ d))] ++
              (Bridge.get_attestation ("0x" ++ bh) testnet 30 w.att).2 ∨
          (Bridge.bridge_usdc toAddr amount from_chain to_chain testnet pk w).2 =
            [.txApprove (pyInt (amount * 10 ^ d)), .txBurn (pyInt (amount * 10 ^ d))] ++
              (Bridge.get_attestation ("0x" ++ bh) testnet 30 w.att).2 ++ [.txReceive])))) := by
  simp only [Bridge.bridge_usdc]
  repeat' split
  all_goals try (left; rfl)
  all_goals right
  all_goals refine ⟨_, by assumption, ?_⟩
  all_goals first
    | exact Or.inl rfl
    | exact Or.inr (Or.inl rfl)
    | (refine Or.inr (Or.inr ⟨_, by assumption, ?_⟩)
       first
         | exact Or.inl rfl
         | exact Or.inr rfl)

/-- Case analysis of the `send_usdc` event trace: empty, only the RPC
connection, or the connection followed by the single transfer submission
carrying `pyInt (amount * 10 ^ decimals)`. -/
theorem send_trace_cases (toAddr : String) (amount : ℚ) (chain : String)
    (testnet : Bool) (pk : Option String) (w : Send.World) :
    (Send.send_usdc toAddr amount chain testnet pk w).2 = [] ∨
    (∃ u, (Send.send_usdc toAddr amount chain testnet pk w).2 = [.connect u]) ∨
    (∃ u d, w.decimals = .ok d ∧
      (Send.send_usdc toAddr amount chain testnet pk w).2 =
        [.connect u, .txTransfer (pyInt (amount * 10 ^ d))]) := by
  simp only [Send.send_usdc]
  repeat' split
  all_goals first
    | (left; rfl)
    | (right; left; exact ⟨_, rfl⟩)
    | (right; right; exact ⟨_, _, by assumption, rfl⟩)

end ShapeLemmas

section CountHelpers

open Bridge

/-- The attestation polling trace contains no transaction submissions. -/
theorem att_trace_no_tx (msg : String) (testnet : Bool) (ma : ℕ)
    (rsp : ℕ → AttResponse) :
    nApprove (get_attestation msg testnet ma rsp).2 = 0 ∧
    nBurn (get_attestation msg testnet ma rsp).2 = 0 ∧
    nReceive (get_attestation msg testnet ma rsp).2 = 0 := by
  simp only [get_attestation]
  refine ⟨?_, ?_, ?_⟩ <;>
    (simp only [nApprove, nBurn, nReceive]
     rw [List.countP_eq_zero]
     intro e he
     rcases attLoop_trace_mem _ _ _ _ _ e he with h | h | h <;> simp [h])

/-- The attestation polling trace contains no transaction submissions and
no RPC connections, membership form. -/
theorem att_no_tx_mem (msg : String) (testnet : Bool) (ma : ℕ)
    (rsp : ℕ → Bridge.AttResponse) :
    (∀ a, Event.txApprove a ∉ (Bridge.get_attestation msg testnet ma rsp).2) ∧
    (∀ a, Event.txBurn a ∉ (Bridge.get_attestation msg testnet ma rsp).2) ∧
    (Event.txReceive ∉ (Bridge.get_attestation msg testnet ma rsp).2) ∧
    (∀ u, Event.connect u ∉ (Bridge.get_attestation msg testnet ma rsp).2) := by
  simp only [Bridge.get_attestation]
  refine ⟨fun a ha => ?_, fun a ha => ?_, fun ha => ?_, fun u hu => ?_⟩
  · rcases attLoop_trace_mem _ _ _ _ _ _ ha with h | h | h <;> simp at h
  · rcases attLoop_trace_mem _ _ _ _ _ _ ha with h | h | h <;> simp at h
  · rcases attLoop_trace_mem _ _ _ _ _ _ ha with h | h | h <;> simp at h
  · rcases attLoop_trace_mem _ _ _ _ _ _ hu with h | h | h <;> simp at h

end CountHelpers

section Claims

open Bridge

/-- C3: for every message hash and every `max_attempts`, `get_attestation`
performs at most `max_attempts` polling attempts (HTTP GETs) against the
attestation endpoint, and if no attempt observes a response with status
`complete` it terminates with the timeout error dict
`{"error": "Attestation timeout"}` instead of looping indefinitely.
(In the source `max_attempts` defaults to 30.) -/
theorem attestation_poll_bounded (msg : String) (testnet : Bool) (ma : ℕ)
    (rsp : ℕ → AttResponse) :
    nGets (get_attestation msg testnet ma rsp).2 ≤ ma ∧
    ((∀ i, i < ma → isComplete (rsp i) = false) →
      (get_attestation msg testnet ma rsp).1 = [("error", .vStr "Attestation timeout")]) := by
  constructor
  · simp only [get_attestation]
    exact attLoop_gets_le _ _ _ ma 0
  · intro h
    simp only [get_attestation]
    exact attLoop_timeout _ _ _ ma 0 (fun i _ h2 => h i (by omega))

/-- Witness for C3 at a concrete input: two attempts that both raise. -/
theorem attestation_poll_bounded_witness :
    nGets (get_attestation "0xabc" true 2 allRaise).2 ≤ 2 ∧
    (get_attestation "0xabc" true 2 allRaise).1 = [("error", .vStr "Attestation timeout")] :=
  ⟨(attestation_poll_bounded "0xabc" true 2 allRaise).1,
   (attestation_poll_bounded "0xabc" true 2 allRaise).2 (fun _ _ => rfl)⟩

/-- C4 counterexample: with `testnet` true the bridge script resolves
`polygon` to the production key `polygon`, while the balance and send
scripts resolve it to `polygon_mumbai`, so the three scripts do not
resolve every supported chain consistently. -/
theorem chain_key_polygon_divergence :
    Bridge.get_chain_key "polygon" true = "polygon" ∧
    Balance.get_chain_key "polygon" true = "polygon_mumbai" ∧
    Send.get_chain_key "polygon" true = "polygon_mumbai" ∧
    ("polygon" : String) ≠ "polygon_mumbai" := by
  refine ⟨rfl, rfl, rfl, by decide⟩

/-- C4 (amended): for `ethereum`, `base` and `arbitrum` the three scripts
resolve each (chain, testnet) pair identically, mapping to the sepolia key
exactly when `testnet` is set, and each resolved key is present in the
tables the scripts consult; for `polygon` with `testnet` set, however,
`balance.py` and `send.py` resolve to `polygon_mumbai` while `bridge.py`
resolves to the production key `polygon`, whose bridge-table entries are
the production (mainnet) contract addresses. -/
theorem chain_key_resolution_amended :
    (Balance.get_chain_key "ethereum" true = "ethereum_sepolia" ∧
     Send.get_chain_key "ethereum" true = "ethereum_sepolia" ∧
     Bridge.get_chain_key "ethereum" true = "ethereum_sepolia" ∧
     Balance.get_chain_key "base" true = "base_sepolia" ∧
     Send.get_chain_key "base" true = "base_sepolia" ∧
     Bridge.get_chain_key "base" true = "base_sepolia" ∧
     Balance.get_chain_key "arbitrum" true = "arbitrum_sepolia" ∧
     Send.get_chain_key "arbitrum" true = "arbitrum_sepolia" ∧
     Bridge.get_chain_key "arbitrum" true = "arbitrum_sepolia") ∧
    (Balance.get_chain_key "ethereum" false = "ethereum" ∧
     Send.get_chain_key "ethereum" false = "ethereum" ∧
     Bridge.get_chain_key "ethereum" false = "ethereum" ∧
     Balance.get_chain_key "base" false = "base" ∧
     Send.get_chain_key "base" false = "base" ∧
     Bridge.get_chain_key "base" false = "base" ∧
     Balance.get_chain_key "polygon" false = "polygon" ∧
     Send.get_chain_key "polygon" false = "polygon" ∧
     Bridge.get_chain_key "polygon" false = "polygon" ∧
     Balance.get_chain_key "arbitrum" false = "arbitrum" ∧
     Send.get_chain_key "arbitrum" false = "arbitrum" ∧
     Bridge.get_chain_key "arbitrum" false = "arbitrum") ∧
    ((Balance.USDC_ADDRESSES.lookup "ethereum_sepolia").isSome ∧
     (Balance.USDC_ADDRESSES.lookup "base_sepolia").isSome ∧
     (Balance.USDC_ADDRESSES.lookup "arbitrum_sepolia").isSome ∧
     (Send.USDC_ADDRESSES.lookup "ethereum_sepolia").isSome ∧
     (Send.USDC_ADDRESSES.lookup "base_sepolia").isSome ∧
     (Send.USDC_ADDRESSES.lookup "arbitrum_sepolia").isSome ∧
     (Bridge.USDC_ADDRESSES.lookup "ethereum_sepolia").isSome ∧
     (Bridge.USDC_ADDRESSES.lookup "base_sepolia").isSome ∧
     (Bridge.USDC_ADDRESSES.lookup "arbitrum_sepolia").isSome ∧
     (Bridge.TOKEN_MESSENGER.lookup "ethereum_sepolia").isSome ∧
     (Bridge.TOKEN_MESSENGER.lookup "base_sepolia").isSome ∧
     (Bridge.TOKEN_MESSENGER.lookup "arbitrum_sepolia").isSome) ∧
    (Balance.get_chain_key "polygon" true = "polygon_mumbai" ∧
     Send.get_chain_key "polygon" true = "polygon_mumbai" ∧
     Bridge.get_chain_key "polygon" true = "polygon" ∧
     Bridge.USDC_ADDRESSES.lookup (Bridge.get_chain_key "polygon" true) =
       some "0x3c499c542cEF5E3811e1192ce70d8cC03d5c3359" ∧
     Bridge.USDC_ADDRESSES.lookup (Bridge.get_chain_key "polygon" false) =
       some "0x3c499c542cEF5E3811e1192ce70d8cC03d5c3359") := by
  refine ⟨⟨rfl, rfl, rfl, rfl, rfl, rfl, rfl, rfl, rfl⟩,
          ⟨rfl, rfl, rfl, rfl, rfl, rfl, rfl, rfl, rfl, rfl, rfl, rfl⟩,
          ?_, ⟨rfl, rfl, rfl, rfl, rfl⟩⟩
  refine ⟨?_, ?_, ?_, ?_, ?_, ?_, ?_, ?_, ?_, ?_, ?_, ?_⟩ <;> decide

/-- C6 counterexample: a run whose first attempt observes a pending status
and whose second attempt raises sleeps 10 seconds after the first attempt
but 5 seconds after the second — the interval is not one fixed constant. -/
theorem attestation_sleep_not_single_constant :
    Event.sleep 10 ∈ (get_attestation "0xabc" true 2 pendThenRaise).2 ∧
    Event.sleep 5 ∈ (get_attestation "0xabc" true 2 pendThenRaise).2 ∧
    (10 : ℕ) ≠ 5 := by
  refine ⟨by decide, by decide, by decide⟩

/-- C6 (amended): the polling loop's sleep interval is one of two fixed
per-branch constants — every sleep is 10 or 5 seconds; runs in which no
attempt raises sleep only 10 seconds, and runs in which every attempt
raises sleep only 5 seconds. -/
theorem attestation_sleep_two_constants (msg : String) (testnet : Bool)
    (ma : ℕ) (rsp : ℕ → AttResponse) :
    (∀ s, Event.sleep s ∈ (get_attestation msg testnet ma rsp).2 → s = 10 ∨ s = 5) ∧
    ((∀ i, isRaise (rsp i) = false) →
      ∀ s, Event.sleep s ∈ (get_attestation msg testnet ma rsp).2 → s = 10) ∧
    ((∀ i, isRaise (rsp i) = true) →
      ∀ s, Event.sleep s ∈ (get_attestation msg testnet ma rsp).2 → s = 5) := by
  refine ⟨?_, ?_, ?_⟩
  · intro s hs
    simp only [get_attestation] at hs
    rcases attLoop_trace_mem _ _ _ _ _ _ hs with h | h | h
    · exact absurd h (by simp)
    · left; injection h with h2
    · right; injection h with h2
  · intro hnr s hs
    simp only [get_attestation] at hs
    exact attLoop_sleep_no_raise _ _ _ hnr _ _ _ hs
  · intro har s hs
    simp only [get_attestation] at hs
    exact attLoop_sleep_all_raise _ _ _ har _ _ _ hs

/-- Witness for C6's amended theorem at concrete inputs. -/
theorem attestation_sleep_two_constants_witness :
    ((10 : ℕ) = 10 ∨ (10 : ℕ) = 5) ∧ (5 : ℕ) = 5 :=
  ⟨(attestation_sleep_two_constants "0xabc" true 2 pendThenRaise).1 10 (by decide),
   (attestation_sleep_two_constants "0xabc" true 2 allRaise).2.2 (fun _ => rfl) 5 (by decide)⟩

/-- C9: for every 40-character hex-digit string `s` (the part of a
0x-prefixed address after the prefix), `address_to_bytes32` succeeds and
returns exactly 32 bytes: the 20 address bytes left-padded with 12 zero
bytes. -/
theorem address_to_bytes32_pads (s : List Char) (hlen : s.length = 40)
    (hhex : ∀ c ∈ s, (hexVal c).isSome) :
    ∃ b, fromhex s = some b ∧ b.length = 20 ∧
      address_to_bytes32 ('0' :: 'x' :: s) = some (List.replicate 12 0 ++ b) ∧
      (List.replicate 12 0 ++ b).length = 32 := by
  have htot := fromhex_total s hhex (by rw [hlen])
  rcases Option.isSome_iff_exists.mp htot with ⟨b, hb⟩
  have hblen : 2 * b.length = 40 := by rw [fromhex_length s b hb, hlen]
  have hdrop : (('0' :: 'x' :: s).drop 2) = s := rfl
  refine ⟨b, hb, by omega, ?_, by simp; omega⟩
  unfold address_to_bytes32 zfill
  rw [hdrop, hlen]
  rw [show (64 - 40 : ℕ) = 2 * 12 from rfl]
  rw [fromhex_pad, hb]
  rfl

/-- Witness for C9 at the concrete address whose bytes are `0..19`. -/
theorem address_to_bytes32_pads_witness :
    fromhex hex40 = some (List.range 20) ∧
    (List.range 20).length = 20 ∧
    address_to_bytes32 ('0' :: 'x' :: hex40) =
      some (List.replicate 12 0 ++ List.range 20) ∧
    (List.replicate 12 0 ++ List.range 20).length = 32 := by
  obtain ⟨b, h1, h2, h3, h4⟩ := address_to_bytes32_pads hex40 (by decide) (by decide)
  have hb : b = List.range 20 := by
    have hc : fromhex hex40 = some (List.range 20) := by decide
    rw [hc] at h1
    exact (Option.some.inj h1).symm
  subst hb
  exact ⟨h1, h2, h3, h4⟩

/-- C1 counterexample: for the float-representable amount `2 ^ (-20)`
(about `9.5e-7` USDC) with 6 token decimals, the transfer submits the raw
amount `int(amount * 10 ** 6) = 0`, which does not equal
`amount * 10 ^ 6 = 15625 / 16384`; the conversion is not exact scaling. -/
theorem amount_conversion_not_exact :
    Event.txTransfer 0 ∈
      (Send.send_usdc "0xR" (1 / 1048576) "base" true (some "key") sendOkW).2 ∧
    ((0 : ℤ) : ℚ) ≠ (1 / 1048576 : ℚ) * 10 ^ 6 := by
  have h0 : pyInt ((1 / 1048576 : ℚ) * 10 ^ 6) = 0 := by norm_num [pyInt]
  have ht : (Send.send_usdc "0xR" (1 / 1048576) "base" true (some "key") sendOkW).2 =
      [Event.connect "https://base-sepolia-rpc.publicnode.com",
       Event.txTransfer (pyInt ((1 / 1048576 : ℚ) * 10 ^ 6))] := by
    simp [Send.send_usdc, sendOkW, resolvePk, getenvD, Send.get_chain_key,
          Send.DEFAULT_RPCS, Send.USDC_ADDRESSES, List.lookup]
  constructor
  · rw [ht, h0]; simp
  · norm_num

/-- C1 (amended): every raw amount submitted by the transfer of `send_usdc`
and by the approve and depositForBurn of `bridge_usdc` equals
`int(amount * 10 ** decimals)`, i.e. the product truncated toward zero
under exact arithmetic; it equals `amount * 10 ^ decimals` itself exactly
when that product is an integer (float rounding, outside this model, can
only perturb further). -/
theorem amount_conversion_truncates :
    (∀ (toAddr : String) (amount : ℚ) (chain : String) (testnet : Bool)
       (pk : Option String) (w : Send.World) (d : ℕ), w.decimals = .ok d →
       ∀ a, Event.txTransfer a ∈ (Send.send_usdc toAddr amount chain testnet pk w).2 →
         a = pyInt (amount * 10 ^ d)) ∧
    (∀ (toAddr : String) (amount : ℚ) (from_chain to_chain : String) (testnet : Bool)
       (pk : Option String) (w : Bridge.World) (d : ℕ), w.decimals = .ok d →
       ∀ a,
         (Event.txApprove a ∈
            (Bridge.bridge_usdc toAddr amount from_chain to_chain testnet pk w).2 ∨
          Event.txBurn a ∈
            (Bridge.bridge_usdc toAddr amount from_chain to_chain testnet pk w).2) →
         a = pyInt (amount * 10 ^ d)) ∧
    (∀ (amount : ℚ) (d : ℕ) (n : ℤ), amount * 10 ^ d = (n : ℚ) →
      (pyInt (amount * 10 ^ d) : ℚ) = amount * 10 ^ d) := by
  refine ⟨?_, ?_, ?_⟩
  · intro toAddr amount chain testnet pk w d hd a ha
    rcases send_trace_cases toAddr amount chain testnet pk w with h | ⟨u, h⟩ | ⟨u, d', hd', h⟩
    · rw [h] at ha; simp at ha
    · rw [h] at ha; simp at ha
    · rw [hd] at hd'
      injection hd' with h2
      subst h2
      rw [h] at ha
      simpa using ha
  · intro toAddr amount from_chain to_chain testnet pk w d hd a ha
    rcases bridge_trace_cases toAddr amount from_chain to_chain testnet pk w with
      h | ⟨d', hd', hsh⟩
    · rw [h] at ha; simp at ha
    · rw [hd] at hd'
      injection hd' with h2
      subst h2
      obtain hA := fun bh => (att_no_tx_mem ("0x" ++ bh) testnet 30 w.att).1 a
      obtain hB := fun bh => (att_no_tx_mem ("0x" ++ bh) testnet 30 w.att).2.1 a
      rcases hsh with h | h | ⟨bh, _, h | h⟩
      · rw [h] at ha
        simp at ha
        exact ha
      · rw [h] at ha
        simp at ha
        exact ha
      · rw [h] at ha
        simp [List.mem_append, hA bh, hB bh] at ha
        exact ha
      · rw [h] at ha
        simp [List.mem_append, hA bh, hB bh] at ha
        exact ha
  · intro amount d n h
    rw [h]
    unfold pyInt
    split <;> simp

/-- Witness for C1's amended theorem at a concrete input: amount 5 and 6
decimals give the raw amount 5000000, and the product being an integer the
conversion is exact there. -/
theorem amount_conversion_truncates_witness :
    (5000000 : ℤ) = pyInt ((5 : ℚ) * 10 ^ 6) ∧
    (pyInt ((5 : ℚ) * 10 ^ 6) : ℚ) = (5 : ℚ) * 10 ^ 6 := by
  have h5 : pyInt ((5 : ℚ) * 10 ^ 6) = 5000000 := by norm_num [pyInt]
  have ht : (Send.send_usdc "0xR" 5 "base" true (some "key") sendOkW).2 =
      [Event.connect "https://base-sepolia-rpc.publicnode.com",
       Event.txTransfer (pyInt ((5 : ℚ) * 10 ^ 6))] := by
    simp [Send.send_usdc, sendOkW, resolvePk, getenvD, Send.get_chain_key,
          Send.DEFAULT_RPCS, Send.USDC_ADDRESSES, List.lookup]
  constructor
  · exact amount_conversion_truncates.1 "0xR" 5 "base" true (some "key") sendOkW 6 rfl
      5000000 (by rw [ht, h5]; simp)
  · exact amount_conversion_truncates.2.2 5 6 5000000 (by norm_num)

/-- C2: whenever the private key resolves, the chain lookups succeed, the
approve and burn transactions are submitted and confirmed, and no polling
attempt observes a complete attestation, `bridge_usdc` returns the
partial-success dict: `partial_success` set to true, carrying the burn
transaction hash, the timeout error message and the resume note — not a
plain error and not a full success. -/
theorem bridge_partial_success_on_timeout (toAddr : String) (amount : ℚ)
    (from_chain to_chain : String) (testnet : Bool) (pk : Option String)
    (w : Bridge.World) (p s ua ma : String) (dd : ℕ) (d : ℕ) (tx1 bh : String)
    (hpk : resolvePk pk w.env = some p)
    (hacc : w.accountAddr = .ok s)
    (hua : Bridge.USDC_ADDRESSES.lookup (Bridge.get_chain_key from_chain testnet) = some ua)
    (hma : Bridge.TOKEN_MESSENGER.lookup (Bridge.get_chain_key from_chain testnet) = some ma)
    (hdd : Bridge.DOMAIN_IDS.lookup (Bridge.get_chain_key to_chain testnet) = some dd)
    (hd : w.decimals = .ok d)
    (ha1 : w.approveSend = .ok tx1)
    (ha2 : w.approveWait = .ok ())
    (hb1 : w.burnSend = .ok bh)
    (hb2 : w.burnWait = .ok ())
    (hto : ∀ i, i < 30 → isComplete (w.att i) = false) :
    (Bridge.bridge_usdc toAddr amount from_chain to_chain testnet pk w).1 =
      [("partial_success", .vBool true),
       ("burn_tx", .vStr bh),
       ("error", .vStr "Attestation timeout"),
       ("note", .vStr "Burn successful. Attestation pending. Use status.py to complete.")] := by
  have htime : (Bridge.get_attestation ("0x" ++ bh) testnet 30 w.att).1 =
      [("error", .vStr "Attestation timeout")] := by
    simp only [Bridge.get_attestation]
    exact attLoop_timeout _ _ _ 30 0 (fun i _ h2 => hto i (by omega))
  simp only [Bridge.bridge_usdc, hpk, hacc, hua, hma, hdd, hd, ha1, ha2, hb1, hb2]
  simp [htime, hasKey, dGet]

/-- Witness for C2 at a concrete input: a bridge run whose attestation
attempts all raise. -/
theorem bridge_partial_success_on_timeout_witness :
    (Bridge.bridge_usdc "0xR" 5 "base" "arbitrum" true (some "key") bridgeTimeoutW).1 =
      [("partial_success", .vBool true),
       ("burn_tx", .vStr "bb22"),
       ("error", .vStr "Attestation timeout"),
       ("note", .vStr "Burn successful. Attestation pending. Use status.py to complete.")] :=
  bridge_partial_success_on_timeout "0xR" 5 "base" "arbitrum" true (some "key")
    bridgeTimeoutW "key" "0xSender" _ _ 3 6 "aa11" "bb22"
    rfl rfl rfl rfl rfl rfl rfl rfl rfl rfl (fun _ _ => rfl)

/-- C7: in every `bridge_usdc` run each on-chain operation — the approve,
depositForBurn and receiveMessage transactions — is submitted at most
once; only the attestation poll repeats, and its HTTP query at most 30
times. -/
theorem bridge_no_tx_retry (toAddr : String) (amount : ℚ)
    (from_chain to_chain : String) (testnet : Bool) (pk : Option String)
    (w : Bridge.World) :
    nApprove (Bridge.bridge_usdc toAddr amount from_chain to_chain testnet pk w).2 ≤ 1 ∧
    nBurn (Bridge.bridge_usdc toAddr amount from_chain to_chain testnet pk w).2 ≤ 1 ∧
    nReceive (Bridge.bridge_usdc toAddr amount from_chain to_chain testnet pk w).2 ≤ 1 ∧
    nGets (Bridge.bridge_usdc toAddr amount from_chain to_chain testnet pk w).2 ≤ 30 := by
  rcases bridge_trace_cases toAddr amount from_chain to_chain testnet pk w with
    h | ⟨d, _, h | h | ⟨bh, _, h | h⟩⟩ <;> rw [h]
  · simp [nApprove, nBurn, nReceive, nGets]
  · simp [nApprove, nBurn, nReceive, nGets, List.countP_cons]
  · simp [nApprove, nBurn, nReceive, nGets, List.countP_cons]
  · obtain ⟨hA, hB, hR⟩ := att_trace_no_tx ("0x" ++ bh) testnet 30 w.att
    have hG : nGets (Bridge.get_attestation ("0x" ++ bh) testnet 30 w.att).2 ≤ 30 := by
      simp only [Bridge.get_attestation]
      exact attLoop_gets_le _ _ _ 30 0
    simp only [nApprove, nBurn, nReceive, nGets] at hA hB hR hG
    refine ⟨?_, ?_, ?_, ?_⟩ <;>
      (simp [nApprove, nBurn, nReceive, nGets, List.countP_append, List.countP_cons,
         hA, hB, hR]
       try omega)
  · obtain ⟨hA, hB, hR⟩ := att_trace_no_tx ("0x" ++ bh) testnet 30 w.att
    have hG : nGets (Bridge.get_attestation ("0x" ++ bh) testnet 30 w.att).2 ≤ 30 := by
      simp only [Bridge.get_attestation]
      exact attLoop_gets_le _ _ _ 30 0
    simp only [nApprove, nBurn, nReceive, nGets] at hA hB hR hG
    refine ⟨?_, ?_, ?_, ?_⟩ <;>
      (simp [nApprove, nBurn, nReceive, nGets, List.countP_append, List.countP_cons,
         hA, hB, hR]
       try omega)

/-- C8: every attestation HTTP GET issued by `bridge_usdc` polls the URL
built from the attestation API base and the message hash
`"0x" ++ burn_hash.hex()` — the hex rendering of the burn transaction
hash with a `0x` prefix, not a hash parsed from the receipt's logs (the
receipt's logs do not enter the model of the computation at all). -/
theorem bridge_polls_burn_hash (toAddr : String) (amount : ℚ)
    (from_chain to_chain : String) (testnet : Bool) (pk : Option String)
    (w : Bridge.World) (bh : String) (hb : w.burnSend = .ok bh) :
    ∀ u, Event.httpGet u ∈ (Bridge.bridge_usdc toAddr amount from_chain to_chain testnet pk w).2 →
      u = (Bridge.ATTESTATION_API.lookup (if testnet then "testnet" else "mainnet")).getD "" ++
          "/" ++ ("0x" ++ bh) := by
  intro u hu
  rcases bridge_trace_cases toAddr amount from_chain to_chain testnet pk w with
    h | ⟨d, _, h | h | ⟨bh', hbs', h | h⟩⟩ <;> rw [h] at hu
  · simp at hu
  · simp at hu
  · simp at hu
  · rw [hb] at hbs'
    injection hbs' with h2
    subst h2
    simp only [List.mem_append, List.mem_cons, List.not_mem_nil, or_false] at hu
    rcases hu with (hu | hu) | hu
    · cases hu
    · cases hu
    · simp only [Bridge.get_attestation] at hu
      rcases attLoop_trace_mem _ _ _ _ _ _ hu with h' | h' | h'
      · injection h' with h2
      · cases h'
      · cases h'
  · rw [hb] at hbs'
    injection hbs' with h2
    subst h2
    simp only [List.mem_append, List.mem_cons, List.not_mem_nil, or_false] at hu
    rcases hu with ((hu | hu) | hu) | hu
    · cases hu
    · cases hu
    · simp only [Bridge.get_attestation] at hu
      rcases attLoop_trace_mem _ _ _ _ _ _ hu with h' | h' | h'
      · injection h' with h2
      · cases h'
      · cases h'
    · cases hu

/-- Witness for C8 at a concrete input: a run whose first attestation
attempt observes a pending status, so the trace contains a GET, and that
GET's URL is the sandbox endpoint with `0x` prepended to the burn hash. -/
theorem bridge_polls_burn_hash_witness :
    "https://iris-api-sandbox.circle.com/attestations/0xbb22" =
      (Bridge.ATTESTATION_API.lookup (if true then "testnet" else "mainnet")).getD "" ++
        "/" ++ ("0x" ++ "bb22") := by
  have h5 : pyInt ((5 : ℚ) * 10 ^ 6) = 5000000 := by norm_num [pyInt]
  have hkey : hasKey (Bridge.get_attestation "0xbb22" true 30 pendThenRaise).1
      "error" = true := by decide
  have ht : (Bridge.bridge_usdc "0xR" 5 "base" "arbitrum" true (some "key") bridgePendW).2 =
      [Event.txApprove 5000000, Event.txBurn 5000000] ++
        (Bridge.get_attestation "0xbb22" true 30 pendThenRaise).2 := by
    simp [Bridge.bridge_usdc, bridgePendW, resolvePk, getenvD, Bridge.get_chain_key,
          Bridge.USDC_ADDRESSES, Bridge.TOKEN_MESSENGER, Bridge.DOMAIN_IDS,
          List.lookup, hkey, h5]
  exact bridge_polls_burn_hash "0xR" 5 "base" "arbitrum" true (some "key")
    bridgePendW "bb22" rfl "https://iris-api-sandbox.circle.com/attestations/0xbb22"
    (by rw [ht]; decide)

/-- C10: in `get_balance` and `send_usdc` the RPC-override environment
variable is derived from the user-supplied base chain name
(`USDC_RPC_<CHAIN>` uppercased), not from the resolved testnet chain key,
so when that variable is set, every RPC connection of either function
uses its value for both the mainnet and the testnet variant of the
chain. -/
theorem rpc_override_ignores_testnet :
    (∀ (address chain : String) (testnet : Bool) (w : Balance.World) (u : String),
      w.env ("USDC_RPC_" ++ pyUpper chain) = some u →
      ∀ v, Event.connect v ∈ (Balance.get_balance address chain testnet w).2 → v = u) ∧
    (∀ (toAddr : String) (amount : ℚ) (chain : String) (testnet : Bool)
       (pk : Option String) (w : Send.World) (u : String),
      w.env ("USDC_RPC_" ++ pyUpper chain) = some u →
      ∀ v, Event.connect v ∈ (Send.send_usdc toAddr amount chain testnet pk w).2 → v = u) := by
  constructor
  · intro address chain testnet w u henv v hv
    simp only [Balance.get_balance, getenvD, henv] at hv
    repeat' split at hv
    all_goals simp_all
  · intro toAddr amount chain testnet pk w u henv v hv
    simp only [Send.send_usdc, getenvD, henv] at hv
    repeat' split at hv
    all_goals simp_all

/-- Witness for C10 at a concrete input: with `USDC_RPC_BASE` set, both
the testnet balance run and the testnet send run connect to its value. -/
theorem rpc_override_ignores_testnet_witness :
    ("http://localhost:8545" : String) = "http://localhost:8545" ∧
    ("http://localhost:8545" : String) = "http://localhost:8545" :=
  ⟨rpc_override_ignores_testnet.1 "0xA" "base" true balOvrW "http://localhost:8545"
      (by decide) "http://localhost:8545" (by decide),
   rpc_override_ignores_testnet.2 "0xR" 5 "base" true (some "key") sendOvrW
      "http://localhost:8545" (by decide) "http://localhost:8545" (by
        have h5 : pyInt ((5 : ℚ) * 10 ^ 6) = 5000000 := by norm_num [pyInt]
        have hup : ("USDC_RPC_" ++ pyUpper "base") = "USDC_RPC_BASE" := by decide
        have ht : (Send.send_usdc "0xR" 5 "base" true (some "key") sendOvrW).2 =
            [Event.connect "http://localhost:8545",
             Event.txTransfer (pyInt ((5 : ℚ) * 10 ^ 6))] := by
          simp [Send.send_usdc, sendOvrW, resolvePk, getenvD, Send.get_chain_key,
                Send.DEFAULT_RPCS, Send.USDC_ADDRESSES, List.lookup, hup]
        rw [ht]
        simp)⟩

/-- C5: each of `get_balance`, `send_usdc` and `bridge_usdc` always
returns a dict (the embeddings are total functions, mirroring the
scripts' top-level `try/except` blocks, so no exception propagates), and
every non-success result carries an `error` key whose value is a message
string; the remaining results are the success-shaped dicts. -/
theorem results_error_or_success :
    (∀ (address chain : String) (testnet : Bool) (w : Balance.World),
      (∃ m, dGet (Balance.get_balance address chain testnet w).1 "error" = some (.vStr m)) ∨
      (hasKey (Balance.get_balance address chain testnet w).1 "error" = false ∧
       hasKey (Balance.get_balance address chain testnet w).1 "balance" = true)) ∧
    (∀ (toAddr : String) (amount : ℚ) (chain : String) (testnet : Bool)
       (pk : Option String) (w : Send.World),
      (∃ m, dGet (Send.send_usdc toAddr amount chain testnet pk w).1 "error" = some (.vStr m)) ∨
      (hasKey (Send.send_usdc toAddr amount chain testnet pk w).1 "error" = false ∧
       dGet (Send.send_usdc toAddr amount chain testnet pk w).1 "success" =
         some (.vBool true))) ∧
    (∀ (toAddr : String) (amount : ℚ) (from_chain to_chain : String) (testnet : Bool)
       (pk : Option String) (w : Bridge.World),
      (∃ m, dGet (Bridge.bridge_usdc toAddr amount from_chain to_chain testnet pk w).1 "error" =
        some (.vStr m)) ∨
      (hasKey (Bridge.bridge_usdc toAddr amount from_chain to_chain testnet pk w).1 "error" =
         false ∧
       dGet (Bridge.bridge_usdc toAddr amount from_chain to_chain testnet pk w).1 "success" =
         some (.vBool true))) :=
  ⟨balance_error_or_success, send_error_or_success, bridge_error_or_success⟩

end Claims

end UsdcBridge
